import Mathlib

/-!
Shallow embedding of `outils.py`: an output stream splitter (`osplitter`),
a write counter (`writecounter`), and an extension filter
(`_has_ext` / `fileswithext` / `getdatfiles` / `getlogfiles`).

Modelling choices:
- A destination handle is an opaque identifier (`Handle := Nat`).
- Python's duck-typed hasattr check for a write attribute is modelled by the sum
  type `Dest`: `Dest.stream h` is an argument that already exposes a
  `write` method, `Dest.path p` is a string path name.
- `open(f, mode)` is modelled by an environment `openf : String → String →
  Except Err Handle`: on `.error e` the Python call raises, on `.ok h` it
  returns a fresh file object `h`.
- A raising `f.write(msg)` is modelled by `wf : Handle → String → Option Err`
  (`none` = the call succeeds, `some e` = the call raises `e`).
- Exceptions are modelled with `Except` / `Option` result components;
  state mutation is explicit state passing, and the state at the moment
  an exception propagates is returned alongside the error (Python
  exceptions do not roll back mutations, but in `register` the mutation
  happens only after a successful `open`, so the returned state is exact).
-/

/-- Errors raised by the platform (`IOError` messages and the like). -/
abbrev Err := String

/-- An open file object / stream handle, identified opaquely. -/
abbrev Handle := Nat

/-- An argument to `osplitter.__init__` / `osplitter.register`: either an
object already exposing a `write` method, or a string path name. -/
inductive Dest where
  | stream (h : Handle)
  | path (p : String)
deriving DecidableEq, Repr

/-- The state of an `osplitter` instance: `self._files` and
`self._opened_here`, both lists of open handles. -/
structure osplitter where
  _files : List Handle
  _opened_here : List Handle
deriving DecidableEq, Repr

namespace osplitter

/-- Model of `osplitter._register_stream`: `self._files.append(f)`. -/
def _register_stream (s : osplitter) (f : Handle) : osplitter :=
  { s with _files := s._files ++ [f] }

/-- Model of `osplitter.register`, whose default mode is "w".

If `f` has a `write` attribute it is appended to `self._files` directly;
otherwise `f` is a string and `open(f, mode)` is called: a raised error
propagates (state unchanged, since the append has not run yet), a returned
handle is appended to `self._files`.  Returns the resulting state together
with the outcome (`.ok b` for `return b`, `.error e` for a raise). -/
def register (openf : String → String → Except Err Handle)
    (s : osplitter) (f : Dest) (mode : String) : osplitter × Except Err Bool :=
  match f with
  | Dest.stream h => (s._register_stream h, Except.ok true)
  | Dest.path p =>
    match openf p mode with
    | Except.error e => (s, Except.error e)
    | Except.ok h => (s._register_stream h, Except.ok true)

/-- The loop of `osplitter.__init__`: `for f in files: self.register(f)`,
with the default mode "w" of `register`.  Stops at the first raised error. -/
def initLoop (openf : String → String → Except Err Handle) :
    osplitter → List Dest → osplitter × Option Err
  | s, [] => (s, none)
  | s, f :: rest =>
    let r := register openf s f "w"
    match r.2 with
    | Except.ok _ => initLoop openf r.1 rest
    | Except.error e => (r.1, some e)

/-- Model of `osplitter.__init__(*files)`: start from empty `_files` and
`_opened_here`, then register every argument in order. -/
def init (openf : String → String → Except Err Handle)
    (files : List Dest) : osplitter × Option Err :=
  initLoop openf ⟨[], []⟩ files

/-- Model of `osplitter.__len__`: `len(self._files)`. -/
def len (s : osplitter) : Nat := s._files.length

/-- The loop of `osplitter.write`: `for f in self._files: f.write(msg)`.
Returns the ordered list of write calls that completed successfully
(each delivered `msg` to its handle) and, if some call raised, the error;
handles after a raising call are not reached. -/
def writeLoop (wf : Handle → String → Option Err) (msg : String) :
    List Handle → List (Handle × String) × Option Err
  | [] => ([], none)
  | f :: fs =>
    match wf f msg with
    | some e => ([], some e)
    | none =>
      let r := writeLoop wf msg fs
      ((f, msg) :: r.1, r.2)

/-- Model of `osplitter.write(msg)`: propagate the write call to all handled
streams, in list order.  The instance state is not mutated. -/
def write (wf : Handle → String → Option Err)
    (s : osplitter) (msg : String) : List (Handle × String) × Option Err :=
  writeLoop wf msg s._files

/-- Model of `osplitter.close()`: `for f in self._opened_here: f.close()`, then
clear both lists.  Returns the new state together with the ordered list
of handles on which `close` was invoked. -/
def close (s : osplitter) : osplitter × List Handle :=
  (⟨[], []⟩, s._opened_here)

/-- Model of `osplitter.__enter__`: returns `self`. -/
def enterCM (s : osplitter) : osplitter := s

/-- Model of `osplitter.__exit__(exc_type, exc_val, exc_tb)`: calls `self.close()`
and returns `False` (the exception, if any, is not suppressed). -/
def exitCM (s : osplitter) : (osplitter × List Handle) × Bool :=
  (s.close, false)

end osplitter

/-- The state of a `writecounter` instance: the field `self.count`. -/
structure writecounter where
  count : Int
deriving DecidableEq, Repr

namespace writecounter

/-- Model of `writecounter.__init__(initial_value=0)`: `self.count = initial_value`,
no validation of sign or magnitude. -/
def init (initial_value : Int) : writecounter := ⟨initial_value⟩

/-- Model of `writecounter.write(message)`: `self.count += 1`; `message` is unused. -/
def write (c : writecounter) (_message : String) : writecounter :=
  ⟨c.count + 1⟩

/-- Model of `writecounter.tell()`: returns `self.count`. -/
def tell (c : writecounter) : Int := c.count

end writecounter

/-- Python `str.rfind(c)` for a single character: the highest index at
which `c` occurs in `p`, or `-1` when it does not occur. -/
def rfind (p : List Char) (c : Char) : Int :=
  (List.range p.length).foldl
    (fun acc i => if p.get? i = some c then (i : Int) else acc) (-1)

/-- Model of `os.path.splitext` as on POSIX (`posixpath.splitext`, i.e. the
generic one with sep = '/', no alternative separator, and extension
separator '.'):
if the last dot lies after the last slash and the characters of the final
component before that dot are not all dots, split there; otherwise the
extension is empty. -/
def os_path_splitext (pstr : String) : String × String :=
  let p := pstr.data
  let sepIndex := rfind p '/'
  let dotIndex := rfind p '.'
  if sepIndex < dotIndex then
    -- the `while` loop skipping leading dots of the final component:
    -- characters at indices sepIndex+1 .. dotIndex-1
    let between := (p.drop (sepIndex + 1).toNat).take (dotIndex - (sepIndex + 1)).toNat
    if between.all (fun ch => ch = '.') then (pstr, "")
    else (String.mk (p.take dotIndex.toNat), String.mk (p.drop dotIndex.toNat))
  else (pstr, "")

/-- Model of `_has_ext(filename, ext)`: split off the extension with
`os.path.splitext` and compare it to `ext` for equality. -/
def _has_ext (filename ext : String) : Bool :=
  let fext := (os_path_splitext filename).2
  fext == ext

/-- Model of `fileswithext(args, ext)`: the generator yielding, in input order,
each `fn` in `args` with `_has_ext(fn, ext)`; realized here as the list
of its elements. -/
def fileswithext (args : List String) (ext : String) : List String :=
  args.filter (fun fn => _has_ext fn ext)

/-- Model of `getdatfiles` with the extension (default ".dat") given
explicitly: the realized list of `fileswithext(files, ext)`. -/
def getdatfiles (files : List String) (ext : String) : List String :=
  fileswithext files ext

/-- Model of `getdatfiles(files)` called with its default argument ".dat". -/
def getdatfilesDefault (files : List String) : List String :=
  getdatfiles files ".dat"

/-- Model of `getlogfiles` with the extension (default ".log") given
explicitly: the realized list of `fileswithext(files, ext)`. -/
def getlogfiles (files : List String) (ext : String) : List String :=
  fileswithext files ext

/-- Model of `getlogfiles(files)` called with its default argument ".log". -/
def getlogfilesDefault (files : List String) : List String :=
  getlogfiles files ".log"

/-- The observable outcome of running a `with` statement over an
`osplitter`: the final splitter state, the overall result (`.ok (some a)`
for a body returning `a`, `.ok none` for a suppressed exception,
`.error e` for a propagated one), how many times the machinery invoked
`self.close()`, and the handles on which `close` was invoked. -/
structure WithRun (α : Type) where
  final : osplitter
  result : Except Err (Option α)
  closeCalls : Nat
  closedHandles : List Handle
deriving Repr

/-- Semantics of `with s: body`: `__enter__` supplies the manager value,
the body runs on it, then `__exit__` runs exactly once — on the normal
exit path as well as on an exception — and an exception is re-raised
unless `__exit__` returned a truthy value.  `osplitter.__exit__` performs
exactly one `self.close()` call, recorded in `closeCalls`. -/
def withSplitter {α : Type} (s : osplitter)
    (body : osplitter → osplitter × Except Err α) : WithRun α :=
  let mgr := s.enterCM
  let br := body mgr
  let er := br.1.exitCM
  { final := er.1.1
    closedHandles := er.1.2
    closeCalls := 1
    result :=
      match br.2 with
      | Except.ok a => Except.ok (some a)
      | Except.error e => if er.2 then Except.ok none else Except.error e }

/-- The splitter states reachable through the class's mutating interface:
freshly constructed, after a further `register`, or after a `close`
(`write`, `__enter__` do not change the state, and the state change of `__exit__` is that of the `close` it performs). -/
inductive Reachable : osplitter → Prop
  | constructed (openf : String → String → Except Err Handle) (files : List Dest) :
      Reachable (osplitter.init openf files).1
  | registered (openf : String → String → Except Err Handle)
      (s : osplitter) (f : Dest) (mode : String) :
      Reachable s → Reachable (osplitter.register openf s f mode).1
  | closed (s : osplitter) : Reachable s → Reachable (s.close).1

/-! ### Helper lemmas -/

theorem register_opened_here (openf : String → String → Except Err Handle)
    (s : osplitter) (f : Dest) (mode : String) :
    ((osplitter.register openf s f mode).1)._opened_here = s._opened_here := by
  cases f with
  | stream h => rfl
  | path p =>
    simp only [osplitter.register]
    cases openf p mode <;> rfl

theorem initLoop_opened_here (openf : String → String → Except Err Handle) :
    ∀ (files : List Dest) (s : osplitter),
      ((osplitter.initLoop openf s files).1)._opened_here = s._opened_here := by
  intro files
  induction files with
  | nil => intro s; rfl
  | cons f rest ih =>
    intro s
    simp only [osplitter.initLoop]
    cases hr : (osplitter.register openf s f "w").2 with
    | ok b => simp only [hr]; rw [ih]; exact register_opened_here openf s f "w"
    | error e => simp only [hr]; exact register_opened_here openf s f "w"

theorem writeLoop_all_none (wf : Handle → String → Option Err) (msg : String) :
    ∀ fs : List Handle, (∀ f ∈ fs, wf f msg = none) →
      osplitter.writeLoop wf msg fs = (fs.map (fun f => (f, msg)), none) := by
  intro fs
  induction fs with
  | nil => intro _; rfl
  | cons f fs ih =>
    intro h
    have hf : wf f msg = none := h f (by simp)
    have hrest := ih (fun g hg => h g (by simp [hg]))
    simp [osplitter.writeLoop, hf, hrest]

theorem writeLoop_until_raise (wf : Handle → String → Option Err) (msg : String)
    (fk : Handle) (e : Err) :
    ∀ (pre post : List Handle), (∀ f ∈ pre, wf f msg = none) → wf fk msg = some e →
      osplitter.writeLoop wf msg (pre ++ fk :: post)
        = (pre.map (fun f => (f, msg)), some e) := by
  intro pre
  induction pre with
  | nil => intro post _ hk; simp [osplitter.writeLoop, hk]
  | cons f pre ih =>
    intro post h hk
    have hf : wf f msg = none := h f (by simp)
    have hrest := ih post (fun g hg => h g (by simp [hg])) hk
    simp [osplitter.writeLoop, hf, hrest]

theorem register_ok_len (openf : String → String → Except Err Handle)
    (s : osplitter) (f : Dest) (mode : String) (b : Bool)
    (hb : (osplitter.register openf s f mode).2 = Except.ok b) :
    ((osplitter.register openf s f mode).1)._files.length = s._files.length + 1 := by
  cases f with
  | stream h => simp [osplitter.register, osplitter._register_stream]
  | path p =>
    cases ho : openf p mode with
    | ok h => simp [osplitter.register, ho, osplitter._register_stream]
    | error e => simp [osplitter.register, ho] at hb

theorem initLoop_ok_len (openf : String → String → Except Err Handle) :
    ∀ (files : List Dest) (s s1 : osplitter),
      osplitter.initLoop openf s files = (s1, none) →
      s1._files.length = s._files.length + files.length := by
  intro files
  induction files with
  | nil =>
    intro s s1 h
    simp only [osplitter.initLoop] at h
    rw [Prod.mk.injEq] at h
    rw [← h.1]
    simp
  | cons f rest ih =>
    intro s s1 h
    simp only [osplitter.initLoop] at h
    cases hr : (osplitter.register openf s f "w").2 with
    | ok b =>
      rw [hr] at h
      have := ih (osplitter.register openf s f "w").1 s1 h
      rw [this, register_ok_len openf s f "w" b hr]
      simp [List.length_cons]
      omega
    | error e => rw [hr] at h; simp at h

theorem writecounter_foldl_count :
    ∀ (msgs : List String) (c : writecounter),
      (msgs.foldl writecounter.write c).count = c.count + msgs.length := by
  intro msgs
  induction msgs with
  | nil => intro c; simp
  | cons m ms ih =>
    intro c
    simp only [List.foldl_cons, ih, writecounter.write, List.length_cons]
    push_cast
    ring

/-! ### Claim theorems -/

/-- Claim C1 (code evaluation at the failing input): constructing a
splitter from the single path name `"out.log"` opens the file (the handle
`0` lands in `_files`), yet `_opened_here` stays empty and the subsequent
`close()` invokes `close` on no handle at all — contrary to the claim
that the handle opened from a path name is appended to the opened-here
list and closed by `Close()`. -/
theorem c1_path_handle_never_tracked :
    (osplitter.init (fun _ _ => Except.ok 0) [Dest.path "out.log"]).1
      = ⟨[0], []⟩ ∧
    (((osplitter.init (fun _ _ => Except.ok 0) [Dest.path "out.log"]).1).close).2
      = [] := by
  constructor <;> rfl

/-- Claim C2: for every splitter state reachable through the class's
interface, `_opened_here` is empty — construction starts it empty and no
operation ever appends to it — and consequently `close()` invokes `close`
on no underlying handle (its close-call list is empty) and only clears
the two internal lists. -/
theorem c2_opened_here_always_empty :
    ∀ s : osplitter, Reachable s → s._opened_here = [] ∧ (s.close).2 = [] := by
  have key : ∀ s : osplitter, Reachable s → s._opened_here = [] := by
    intro s h
    induction h with
    | constructed openf files =>
      simpa [osplitter.init] using initLoop_opened_here openf files ⟨[], []⟩
    | registered openf s f mode hs ih =>
      rw [register_opened_here]; exact ih
    | closed s hs ih => rfl
  intro s h
  exact ⟨key s h, by simp [osplitter.close, key s h]⟩

theorem c2_witness :
    ((osplitter.init (fun _ _ => Except.ok 0) [Dest.path "a", Dest.stream 5]).1)._opened_here
      = [] ∧
    (((osplitter.init (fun _ _ => Except.ok 0) [Dest.path "a", Dest.stream 5]).1).close).2
      = [] :=
  c2_opened_here_always_empty _
    (Reachable.constructed (fun _ _ => Except.ok 0) [Dest.path "a", Dest.stream 5])

/-- Claim C3: when no destination's write raises, a single `write(data)`
performs exactly one successful write call carrying `data` on each
registered destination, in registration order. -/
theorem c3_write_fanout (wf : Handle → String → Option Err)
    (s : osplitter) (msg : String)
    (h : ∀ f ∈ s._files, wf f msg = none) :
    osplitter.write wf s msg = (s._files.map (fun f => (f, msg)), none) :=
  writeLoop_all_none wf msg s._files h

theorem c3_witness :
    osplitter.write (fun _ _ => none) ⟨[1, 2, 3], []⟩ "data"
      = ([(1, "data"), (2, "data"), (3, "data")], none) :=
  c3_write_fanout (fun _ _ => none) ⟨[1, 2, 3], []⟩ "data" (fun _ _ => rfl)

/-- Claim C4: if the write call of the k-th registered destination raises
(here: `_files = pre ++ fk :: post` with `k = pre.length + 1`), the
destinations before it have each already received the data, the
destinations after it receive nothing, and the originating error
propagates to the caller — no rollback, no retry. -/
theorem c4_write_partial_failure (wf : Handle → String → Option Err)
    (msg : String) (s : osplitter) (pre post : List Handle)
    (fk : Handle) (e : Err)
    (hs : s._files = pre ++ fk :: post)
    (hpre : ∀ f ∈ pre, wf f msg = none)
    (hk : wf fk msg = some e) :
    osplitter.write wf s msg = (pre.map (fun f => (f, msg)), some e) := by
  rw [osplitter.write, hs]
  exact writeLoop_until_raise wf msg fk e pre post hpre hk

theorem c4_witness :
    osplitter.write (fun h _ => if h = 3 then some "disk full" else none)
      ⟨[1, 2, 3, 4, 5], []⟩ "data"
      = ([(1, "data"), (2, "data")], some "disk full") :=
  c4_write_partial_failure (fun h _ => if h = 3 then some "disk full" else none)
    "data" ⟨[1, 2, 3, 4, 5], []⟩ [1, 2] [4, 5] 3 "disk full"
    rfl (by decide) rfl

/-- Claim C5: `register` returns `True` whenever it does not raise (there
is no `False` return path), and when the `open` of a path name raises,
that error propagates unchanged and the splitter's state — in particular
the previously registered destination list — is unchanged. -/
theorem c5_register_outcomes :
    (∀ (openf : String → String → Except Err Handle) (s : osplitter)
        (f : Dest) (mode : String) (b : Bool),
        (osplitter.register openf s f mode).2 = Except.ok b → b = true) ∧
    (∀ (openf : String → String → Except Err Handle) (s : osplitter)
        (p : String) (mode : String) (e : Err),
        openf p mode = Except.error e →
        osplitter.register openf s (Dest.path p) mode = (s, Except.error e)) := by
  constructor
  · intro openf s f mode b hb
    cases f with
    | stream h =>
      simp only [osplitter.register, Except.ok.injEq] at hb
      exact hb.symm
    | path p =>
      cases ho : openf p mode with
      | ok h =>
        simp only [osplitter.register, ho, Except.ok.injEq] at hb
        exact hb.symm
      | error e => simp [osplitter.register, ho] at hb
  · intro openf s p mode e he
    simp [osplitter.register, he]

theorem c5_witness :
    (true = true) ∧
    osplitter.register (fun _ _ => Except.error "ENOENT") ⟨[9], []⟩
      (Dest.path "missing.txt") "r" = (⟨[9], []⟩, Except.error "ENOENT") :=
  ⟨c5_register_outcomes.1 (fun _ _ => Except.ok 3) ⟨[], []⟩ (Dest.stream 1) "w" true rfl,
   c5_register_outcomes.2 (fun _ _ => Except.error "ENOENT") ⟨[9], []⟩
     "missing.txt" "r" "ENOENT" rfl⟩

/-- Claim C6: scoped (context-manager) use — `__enter__` returns the
splitter itself without re-registering anything, and on every exit path
(a body returning normally or raising) the machinery runs `close()`
exactly once, the final state and close-call list are exactly those of
that single `close()` on the body's end state, and a raised error is
re-raised, never suppressed. -/
theorem c6_scoped_use :
    ∀ (α : Type) (s : osplitter) (body : osplitter → osplitter × Except Err α),
      osplitter.enterCM s = s ∧
      (withSplitter s body).closeCalls = 1 ∧
      (withSplitter s body).final = ((body s).1.close).1 ∧
      (withSplitter s body).closedHandles = ((body s).1.close).2 ∧
      (withSplitter s body).result
        = (match (body s).2 with
           | Except.ok a => Except.ok (some a)
           | Except.error e => Except.error e) := by
  intro α s body
  refine ⟨rfl, rfl, rfl, rfl, ?_⟩
  cases hb : (body s).2 with
  | ok a => simp [withSplitter, osplitter.enterCM, osplitter.exitCM, hb]
  | error e => simp [withSplitter, osplitter.enterCM, osplitter.exitCM, hb]

/-- Claim C7: for every initial value `v` (negative values included, no
validation) and every sequence of `k` writes with arbitrary data (empty
strings included), `tell()` returns `v + k`, the exposed `count` field
always equals `tell()`, and in particular `v = 5` with three writes gives
`tell() = 8`. -/
theorem c7_writecounter_tally :
    ∀ (v : Int) (msgs : List String),
      (msgs.foldl writecounter.write (writecounter.init v)).tell
        = v + msgs.length ∧
      (msgs.foldl writecounter.write (writecounter.init v)).count
        = (msgs.foldl writecounter.write (writecounter.init v)).tell ∧
      (List.foldl writecounter.write (writecounter.init 5) ["a", "", "ccc"]).tell
        = 8 := by
  intro v msgs
  refine ⟨?_, rfl, by decide⟩
  simpa [writecounter.tell, writecounter.init]
    using writecounter_foldl_count msgs (writecounter.init v)

/-- Claim C8: `Count()` (i.e. `__len__`) counts registrations — every
successful `register` grows it by exactly one (so after `n` successful
registrations since construction it equals `n`), `close()` resets it to
zero, zero-argument construction gives a valid splitter with count zero
on which `write` is a no-op, and registering the identical handle twice
yields two entries in the destination list. -/
theorem c8_count_registrations :
    (∀ (openf : String → String → Except Err Handle) (s : osplitter)
        (f : Dest) (mode : String) (b : Bool),
        (osplitter.register openf s f mode).2 = Except.ok b →
        (osplitter.register openf s f mode).1.len = s.len + 1) ∧
    (∀ (openf : String → String → Except Err Handle) (files : List Dest)
        (s1 : osplitter),
        osplitter.init openf files = (s1, none) → s1.len = files.length) ∧
    (∀ s : osplitter, (s.close).1.len = 0) ∧
    (∀ openf : String → String → Except Err Handle,
        osplitter.init openf [] = (⟨[], []⟩, none)) ∧
    (∀ (openf : String → String → Except Err Handle)
        (wf : Handle → String → Option Err) (msg : String),
        osplitter.write wf (osplitter.init openf []).1 msg = ([], none)) ∧
    (∀ (openf : String → String → Except Err Handle) (s : osplitter)
        (h : Handle) (mode : String),
        ((osplitter.register openf
            (osplitter.register openf s (Dest.stream h) mode).1
            (Dest.stream h) mode).1)._files = s._files ++ [h, h]) := by
  refine ⟨?_, ?_, ?_, ?_, ?_, ?_⟩
  · intro openf s f mode b hb
    exact register_ok_len openf s f mode b hb
  · intro openf files s1 h
    have := initLoop_ok_len openf files ⟨[], []⟩ s1 h
    simpa [osplitter.len] using this
  · intro s; rfl
  · intro openf; rfl
  · intro openf wf msg; rfl
  · intro openf s h mode
    simp [osplitter.register, osplitter._register_stream]

theorem c8_witness :
    (osplitter.register (fun _ _ => Except.ok 0) ⟨[7], []⟩
        (Dest.stream 7) "w").1.len = 2 ∧
    ((osplitter.init (fun _ _ => Except.ok 4)
        [Dest.path "a.txt", Dest.stream 2]).1).len = 2 :=
  ⟨c8_count_registrations.1 (fun _ _ => Except.ok 0) ⟨[7], []⟩
     (Dest.stream 7) "w" true rfl,
   c8_count_registrations.2.1 (fun _ _ => Except.ok 4)
     [Dest.path "a.txt", Dest.stream 2] ⟨[4, 2], []⟩ rfl⟩

/-- Claim C9: the extension filter keeps exactly those path names whose
extension component under `os.path.splitext` equals the target string
(case-sensitively, leading dot included), preserving input order: the
result is the order-preserving sublist of the input consisting precisely
of the matching names, and on the concrete lists the `.dat` and `.log`
results are as claimed. -/
theorem c9_extension_filter :
    (∀ (paths : List String) (ext : String),
        fileswithext paths ext
          = paths.filter (fun p => (os_path_splitext p).2 == ext)) ∧
    (∀ (paths : List String) (ext : String),
        (fileswithext paths ext).Sublist paths) ∧
    (∀ (paths : List String) (ext : String) (p : String),
        p ∈ fileswithext paths ext ↔ p ∈ paths ∧ (os_path_splitext p).2 = ext) ∧
    fileswithext ["a.dat", "b.log", "c.dat", "d.txt"] ".dat"
      = ["a.dat", "c.dat"] ∧
    fileswithext ["a.dat", "b.log", "c.dat", "d.txt"] ".log"
      = ["b.log"] := by
  refine ⟨fun paths ext => rfl, fun paths ext => List.filter_sublist paths,
    ?_, by decide, by decide⟩
  intro paths ext p
  simp [fileswithext, _has_ext, List.mem_filter]

/-- Claim C10: `getdatfiles` and `getlogfiles` with an explicitly
supplied extension return equal lists, each equal to the realized list of
the lazy `fileswithext`; applied to their respective default arguments
they realize `fileswithext` at `".dat"` and `".log"`. -/
theorem c10_specializations_agree :
    (∀ (paths : List String) (e : String),
        getdatfiles paths e = getlogfiles paths e ∧
        getdatfiles paths e = fileswithext paths e) ∧
    (∀ paths : List String, getdatfilesDefault paths = fileswithext paths ".dat") ∧
    (∀ paths : List String, getlogfilesDefault paths = fileswithext paths ".log") :=
  ⟨fun _ _ => ⟨rfl, rfl⟩, fun _ => rfl, fun _ => rfl⟩
